import Mathlib

/-
Verification development for the decision-boundary visualization engine:
shallow embedding of the dimensionality-reduction / density-filter /
Voronoi-region-extraction pipeline
(webapp_create_scatter_plot_data.py, webapp_dimensionality_reduction_utils.py,
pythonHelpers/create_scatter_plot_data.py), with theorems checking the
specified properties against the embedded code.

Modelling conventions:
- Python floats are embedded as rationals (ℚ); the properties checked here
  are order/shape properties that do not depend on rounding.
- numpy arrays become lists; `arr[idx_list]` becomes `map getD`.
- External stochastic collaborators (numpy RandomState.choice, sklearn KMeans)
  are oracles passed as function parameters; the only contract used about
  KMeans is that fitting with `n_clusters = k` yields exactly `k` centers.
- `np.argmin(np.linalg.norm(...))` is embedded as the first index of the
  minimal squared distance (the same index, since x ↦ x² is monotone on
  nonnegative reals).
-/

namespace ThesisViz

abbrev Pt := ℚ × ℚ

/-- Squared Euclidean distance in projected space (argmin-equivalent to
`np.linalg.norm(class_points - centroid, axis=1)`). -/
def distSq (p q : Pt) : ℚ := (p.1 - q.1) ^ 2 + (p.2 - q.2) ^ 2

/-- Auxiliary fold for `argminIdx`: current best value, next index, best index. -/
def argminAux : List ℚ → ℚ → Nat → Nat → Nat
  | [], _, _, best => best
  | x :: xs, bv, i, best =>
    if x < bv then argminAux xs x (i + 1) i else argminAux xs bv (i + 1) best

/-- First index of the minimum of a list, 0 on the empty list
(embeds `np.argmin`, which returns the first minimizing index). -/
def argminIdx : List ℚ → Nat
  | [] => 0
  | x :: xs => argminAux xs x 1 0

/-- Indices of the points carrying class `cls`
(embeds `np.where(labels == cls)[0]`). -/
def classIndices (labels : List Nat) (cls : Nat) : List Nat :=
  (List.range labels.length).filter (fun i => labels.getD i 0 == cls)

/-- The 2D projected points of one class (embeds `points[class_indices]`). -/
def classPoints (points : List Pt) (labels : List Nat) (cls : Nat) : List Pt :=
  (classIndices labels cls).map (fun i => points.getD i (0, 0))

/-- The seeded uniform sample drawn from a large class
(embeds `class_points[rng.choice(len(class_points), size=sample_size, replace=False)]`
with `sample_size = min(threshold * multiplier, len(class_points))`).
`choice seed n size` embeds `np.random.RandomState(seed).choice(n, size, replace=False)`. -/
def sampledPoints (choice : Nat → Nat → Nat → List Nat)
    (seed threshold multiplier : Nat) (points : List Pt) (labels : List Nat)
    (cls : Nat) : List Pt :=
  (choice seed (classPoints points labels cls).length
      (min (threshold * multiplier) (classPoints points labels cls).length)).map
    (fun j => (classPoints points labels cls).getD j (0, 0))

/-- Embedding of `DataFilter.filter_by_class`'s per-class selection
(webapp_create_scatter_plot_data.py lines 151-172; identically
`filter_points_by_class_kmeans` in pythonHelpers/create_scatter_plot_data.py):
for a class larger than `threshold`, draw a seeded sample of size
`min(threshold * multiplier, classSize)`, run KMeans with
`k = min(threshold, sampleSize)` on the sample, and for each returned center
pick the original index of the class point globally nearest to it; a class at
or below `threshold` contributes all its indices.
`kmeans seed pts k` embeds the centers of `KMeans(k, random_state=seed).fit(pts)`. -/
def selectedForClass (choice : Nat → Nat → Nat → List Nat)
    (kmeans : Nat → List Pt → Nat → List Pt)
    (seed threshold multiplier : Nat) (points : List Pt) (labels : List Nat)
    (cls : Nat) : List Nat :=
  if threshold < (classPoints points labels cls).length then
    (kmeans seed (sampledPoints choice seed threshold multiplier points labels cls)
        (min threshold
          (sampledPoints choice seed threshold multiplier points labels cls).length)).map
      (fun c =>
        (classIndices labels cls).getD
          (argminIdx ((classPoints points labels cls).map (fun p => distSq p c))) 0)
  else classIndices labels cls

/-- Sorted distinct labels (embeds `np.unique(labels)`). -/
def uniqueSorted (l : List Nat) : List Nat :=
  List.insertionSort (· ≤ ·) l.dedup

/-- The final `np.sort(selected_indices)` over all classes of
`DataFilter.filter_by_class`. -/
def selectedIndices (choice : Nat → Nat → Nat → List Nat)
    (kmeans : Nat → List Pt → Nat → List Pt)
    (seed threshold multiplier : Nat) (points : List Pt) (labels : List Nat) :
    List Nat :=
  List.insertionSort (· ≤ ·)
    ((uniqueSorted labels).flatMap
      (selectedForClass choice kmeans seed threshold multiplier points labels))

/-- Embedding of `DataFilter.filter_by_class`: returns
`points[selected], original_data[selected], labels[selected]`. -/
def filter_by_class (choice : Nat → Nat → Nat → List Nat)
    (kmeans : Nat → List Pt → Nat → List Pt)
    (seed threshold multiplier : Nat) (points : List Pt)
    (original : List (List ℚ)) (labels : List Nat) :
    List Pt × List (List ℚ) × List Nat :=
  let sel := selectedIndices choice kmeans seed threshold multiplier points labels
  (sel.map (fun i => points.getD i (0, 0)),
   sel.map (fun i => original.getD i []),
   sel.map (fun i => labels.getD i 0))

/-- A sampling oracle used to instantiate the theorems on concrete inputs:
always picks the first `size` indices. -/
def choiceW : Nat → Nat → Nat → List Nat := fun _ _ size => List.range size

/-- A KMeans oracle used to instantiate the theorems on concrete inputs:
returns `k` copies of the origin (any oracle honoring the
`n_clusters`-many-centers contract works). -/
def kmeansW : Nat → List Pt → Nat → List Pt := fun _ _ k => List.replicate k (0, 0)

/-- ASCII lowercase of a character (Python `str.lower` on the ASCII method
names used by the pipeline). -/
def lowerChar (c : Char) : Char :=
  if 'A' ≤ c ∧ c ≤ 'Z' then Char.ofNat (c.toNat + 32) else c

/-- Embedding of Python `method.lower()` (method names are ASCII). -/
def pyLower (s : String) : String := String.mk (s.data.map lowerChar)

/-- Python `int()` truncation toward zero, on exact rationals. -/
def pyInt (q : ℚ) : Int := if q < 0 then ⌈q⌉ else ⌊q⌋

/-- The per-method user parameter dictionary: one optional field per key the
source reads (webapp_dimensionality_reduction_utils.py); absent field =
key not in the dict. `learning_rate` is kept raw ('auto' or a numeral string)
as in the source; `tsne_method` stands for the t-SNE 'method' key. -/
structure ParamBag where
  whiten : Option Bool := none
  svd_solver : Option String := none
  tol : Option ℚ := none
  iterated_power : Option ℚ := none
  perplexity : Option ℚ := none
  early_exaggeration : Option ℚ := none
  learning_rate : Option String := none
  max_iter : Option ℚ := none
  metric : Option String := none
  init : Option String := none
  tsne_method : Option String := none
  n_neighbors : Option ℚ := none
  min_dist : Option ℚ := none
  spread : Option ℚ := none
  n_epochs : Option ℚ := none
  n_init : Option ℚ := none
  eps : Option ℚ := none
  dissimilarity : Option String := none
deriving DecidableEq

/-- A configured dimensionality reducer (the constructor arguments record the
parameters actually passed to the sklearn / umap constructor). -/
inductive Reducer where
  | pca (n_components seed : Nat) (whiten : Option Bool) (svd_solver : Option String)
      (tol : Option ℚ) (iterated_power : Option Int)
  | tsne (n_components seed : Nat) (perplexity : ℚ) (params : ParamBag)
  | umap (n_components seed : Nat) (params : ParamBag)
  | mds (n_components seed : Nat) (params : ParamBag)
deriving DecidableEq

/-- The perplexity value actually configured on the t-SNE reducer
(webapp_dimensionality_reduction_utils.py lines 91-104): with a user value `p`
and a fitted sample matrix of `n` rows, `max(5.0, min(p, (n - 1) / 3))`;
without a user value, `min(30.0, n / 3)`; without data, a safe default. -/
def tsne_configured_perplexity (perplexity : Option ℚ) (nSamples : Option Nat) : ℚ :=
  match perplexity, nSamples with
  | some p, some n => max 5 (min p (((n : ℚ) - 1) / 3))
  | some p, none => max 5 p
  | none, some n => min 30 ((n : ℚ) / 3)
  | none, none => 5

/-- Embedding of `_create_pca_reducer`: `tol` is forwarded only with
`svd_solver == 'arpack'`, `iterated_power` (as `int(...)`) only with
`svd_solver == 'randomized'`. -/
def create_pca_reducer (n : Nat) (params : ParamBag) (seed : Nat) : Reducer :=
  Reducer.pca n seed params.whiten params.svd_solver
    (if params.svd_solver == some "arpack" then params.tol else none)
    (if params.svd_solver == some "randomized" then params.iterated_power.map pyInt
     else none)

/-- Embedding of `_create_tsne_reducer` (the configured perplexity is the
distinguished field; the remaining keys are forwarded from the bag). -/
def create_tsne_reducer (n : Nat) (params : ParamBag) (seed : Nat)
    (nSamples : Option Nat) : Reducer :=
  Reducer.tsne n seed (tsne_configured_perplexity params.perplexity nSamples) params

/-- Embedding of `create_dimensionality_reducer`
(webapp_dimensionality_reduction_utils.py lines 41-54): dispatch on the
lowercased method name, with an unrecognized name defaulting to
`PCA(n_components=..., random_state=...)` (no user parameters applied). -/
def create_dimensionality_reducer (method : String) (n : Nat) (params : ParamBag)
    (seed : Nat) (nSamples : Option Nat) : Reducer :=
  if pyLower method == "pca" then create_pca_reducer n params seed
  else if pyLower method == "tsne" then create_tsne_reducer n params seed nSamples
  else if pyLower method == "umap" then Reducer.umap n seed params
  else if pyLower method == "mds" then Reducer.mds n seed params
  else Reducer.pca n seed none none none none

/-- The four reduction families of the legacy pipeline
(pythonHelpers/create_scatter_plot_data.py). -/
inductive SrcReducer where
  | pca
  | tsne
  | umap
  | mds
deriving DecidableEq

/-- Embedding of the method dispatch of `preprocess_data`
(pythonHelpers/create_scatter_plot_data.py lines 73-84): an unrecognized
method name raises `ValueError` instead of falling back. -/
def preprocess_data_dispatch (method : String) : Except String SrcReducer :=
  if pyLower method == "pca" then Except.ok SrcReducer.pca
  else if pyLower method == "tsne" then Except.ok SrcReducer.tsne
  else if pyLower method == "umap" then Except.ok SrcReducer.umap
  else if pyLower method == "mds" then Except.ok SrcReducer.mds
  else Except.error
    ("Unsupported method: " ++ method ++ ". Use 'pca', 'tsne', 'umap', or 'mds'.")

/-- Embedding of `can_generate_boundary`
(webapp_dimensionality_reduction_utils.py line 192). -/
def can_generate_boundary (method : String) : Bool := pyLower method == "pca"

/-- Embedding of `DecisionBoundaryGenerator._is_valid_region`
(webapp_create_scatter_plot_data.py line 358; identically
`is_valid_voronoi_region`, pythonHelpers/create_scatter_plot_data.py line 218):
`-1 not in region and len(region) > 0`. -/
def is_valid_region (region : List Int) : Bool :=
  !(region.contains (-1)) && decide (0 < region.length)

/-- Embedding of `np.arange(a, b, step)` for positive step: the values
`a + i * step` for `0 ≤ i < ⌈(b - a) / step⌉`. -/
def arange (a b step : ℚ) : List ℚ :=
  (List.range (⌈(b - a) / step⌉).toNat).map (fun i : Nat => a + (i : ℚ) * step)

/-- Embedding of the boundary mesh construction of
`DecisionBoundaryGenerator.generate_for_pca` (lines 226-233):
`np.meshgrid(np.arange(x_min, x_max, step), np.arange(y_min, y_max, step))`,
raveled row-major into the site list `np.c_[xx.ravel(), yy.ravel()]`. -/
def build_grid (xmin xmax ymin ymax step : ℚ) : List Pt :=
  (arange ymin ymax step).flatMap
    (fun yv => (arange xmin xmax step).map (fun xv => (xv, yv)))

/-- The total mesh cell count `((xMax - xMin)/step) * ((yMax - yMin)/step)`
of the boundary grid (the quantity the specified resource guard is about). -/
def gridCellCount (xmin xmax ymin ymax step : ℚ) : Nat :=
  (⌈(xmax - xmin) / step⌉).toNat * (⌈(ymax - ymin) / step⌉).toNat

/-- The fields of a `scipy.spatial.Voronoi` diagram read by the region
extractor: `vertices` (finite Voronoi vertices), `regions` (per region, its
vertex-index ring, -1 marking the point at infinity), `point_region` (per
input site, the index of its region), and the ridge arrays (per ridge, the
pair of site indices and the pair of vertex indices, -1 for a ridge extending
to infinity).  The diagram is an input produced by the external library; the
concrete instances below are hand-checked Voronoi diagrams of small grids. -/
structure VorDiagram where
  vertices : List Pt
  regions : List (List Int)
  point_region : List Nat
  ridge_points : List (Nat × Nat)
  ridge_vertices : List (List Int)

/-- State accumulated by the region-processing loop of
`DecisionBoundaryGenerator._create_voronoi_regions` (lines 301-321):
graph nodes, `region_class_map`, `region_polygons`, `region_index_map` and
the running `polygon_idx`. -/
structure RegState where
  nodes : List Nat
  classMap : List (Nat × String)
  polygons : List (List Pt)
  indexMap : List (Nat × Nat)
  polyIdx : Nat

/-- One iteration of
`for point_index, region_index in enumerate(vor.point_region)` (lines 307-321):
a valid region gets its polygon appended; if its remapped class index is in
range, the region becomes a graph node with a class name and a polygon index;
on an out-of-range class the loop `continue`s — after the polygon was already
appended and without bumping `polygon_idx`, faithfully to the source. -/
def processRegion (vor : VorDiagram) (Zr : List Nat) (classNames : List String)
    (st : RegState) (pr : Nat × Nat) : RegState :=
  if is_valid_region (vor.regions.getD pr.2 []) then
    if Zr.getD pr.1 0 < classNames.length then
      ⟨st.nodes ++ [pr.2],
       (pr.2, classNames.getD (Zr.getD pr.1 0) "") :: st.classMap,
       st.polygons ++
         [(vor.regions.getD pr.2 []).map (fun vi => vor.vertices.getD vi.toNat (0, 0))],
       (pr.2, st.polyIdx) :: st.indexMap,
       st.polyIdx + 1⟩
    else
      ⟨st.nodes, st.classMap,
       st.polygons ++
         [(vor.regions.getD pr.2 []).map (fun vi => vor.vertices.getD vi.toNat (0, 0))],
       st.indexMap, st.polyIdx⟩
  else st

/-- The region-processing loop over all sites. -/
def processVoronoiRegions (vor : VorDiagram) (Zr : List Nat)
    (classNames : List String) : RegState :=
  vor.point_region.enum.foldl (processRegion vor Zr classNames) ⟨[], [], [], [], 0⟩

/-- The edge-insertion loop over `zip(vor.ridge_points, vor.ridge_vertices)`
(lines 323-328): a ridge not touching infinity adds an edge whenever the two
regions' class lookups compare equal — including the case where BOTH lookups
miss (`region_class_map.get` returning `None` for both invalid regions). -/
def adjacencyEdges (vor : VorDiagram) (classMap : List (Nat × String)) :
    List (Nat × Nat) :=
  (vor.ridge_points.zip vor.ridge_vertices).foldl
    (fun es pr =>
      if pr.2.contains (-1) then es
      else if classMap.lookup (vor.point_region.getD pr.1.1 0) =
          classMap.lookup (vor.point_region.getD pr.1.2 0) then
        es ++ [(vor.point_region.getD pr.1.1 0, vor.point_region.getD pr.1.2 0)]
      else es)
    []

/-- Merge the groups containing either endpoint of one edge (one union step of
the connected-component computation). -/
def mergeGroups (gs : List (List Nat)) (e : Nat × Nat) : List (List Nat) :=
  (gs.filter (fun g => g.contains e.1 || g.contains e.2)).flatten ::
    gs.filter (fun g => !(g.contains e.1 || g.contains e.2))

/-- Connected components of the region-adjacency graph (networkx
`connected_components`, whose node set is the explicitly added nodes plus the
endpoints of added edges — `G.add_edge` inserts missing nodes). -/
def connectedComponents (nodes : List Nat) (edges : List (Nat × Nat)) :
    List (List Nat) :=
  edges.foldl mergeGroups
    ((nodes ++ edges.flatMap (fun e => [e.1, e.2])).dedup.map (fun n => [n]))

/-- Embedding of the merge loop (lines 330-340): per component, the geometric
`unary_union` is represented symbolically by the list of member polygons, and
the class is `region_class_map[list(component)[0]]` — which raises `KeyError`
when the representative is absent from the map.  (The representative of a
component is arbitrary in the source, a Python set iteration; for the
properties proved here the choice is irrelevant: components either consist of
mapped regions that all share one class, or entirely of unmapped regions.) -/
def mergeOne (comp : List Nat) (polygons : List (List Pt))
    (indexMap : List (Nat × Nat)) (classMap : List (Nat × String)) :
    Except String (List (List Pt) × String) :=
  match classMap.lookup (comp.headD 0) with
  | none => Except.error "KeyError: component representative has no class"
  | some cname =>
    Except.ok
      (comp.filterMap (fun i =>
          (indexMap.lookup i).map (fun pidx => polygons.getD pidx [])),
       cname)

/-- The merge loop over the component list. -/
def mergeComponents (comps : List (List Nat)) (polygons : List (List Pt))
    (indexMap : List (Nat × Nat)) (classMap : List (Nat × String)) :
    Except String (List (List (List Pt)) × List String) :=
  match comps with
  | [] => Except.ok ([], [])
  | comp :: rest =>
    match mergeOne comp polygons indexMap classMap with
    | Except.error e => Except.error e
    | Except.ok (poly, cname) =>
      match mergeComponents rest polygons indexMap classMap with
      | Except.error e => Except.error e
      | Except.ok (mr, mc) => Except.ok (poly :: mr, cname :: mc)

/-- The region-processing state of `_create_voronoi_regions` after class
remapping (`{old: new for new, old in enumerate(sorted(np.unique(Z)))}`
becomes rank in the sorted distinct values). -/
def voronoiState (vor : VorDiagram) (Z : List Nat) (classNames : List String) :
    RegState :=
  processVoronoiRegions vor (Z.map (fun z => (uniqueSorted Z).indexOf z)) classNames

/-- The connected components of the adjacency graph built by
`_create_voronoi_regions`. -/
def voronoiComps (vor : VorDiagram) (Z : List Nat) (classNames : List String) :
    List (List Nat) :=
  connectedComponents (voronoiState vor Z classNames).nodes
    (adjacencyEdges vor (voronoiState vor Z classNames).classMap)

/-- Embedding of `DecisionBoundaryGenerator._create_voronoi_regions`
(webapp_create_scatter_plot_data.py lines 269-342; the legacy
`create_voronoi_regions` differs only in raising instead of `continue` on an
out-of-range class index): remap predicted classes to dense indices, build
polygons for valid cells, connect equal class-lookups across finite ridges,
and merge connected components, failing with `KeyError` on a component whose
representative carries no class. -/
def create_voronoi_regions (vor : VorDiagram) (Z : List Nat)
    (classNames : List String) :
    Except String (List (List (List Pt)) × List String) :=
  mergeComponents (voronoiComps vor Z classNames)
    (voronoiState vor Z classNames).polygons
    (voronoiState vor Z classNames).indexMap
    (voronoiState vor Z classNames).classMap

/-- The hand-checked Voronoi diagram of the 3x3 grid of sites
(0,0),(2,0),(4,0),(0,2),(2,2),(4,2),(0,4),(2,4),(4,4) (row-major, spacing 2):
only the center site (2,2) has a bounded cell, the square with corners
(1,1),(3,1),(3,3),(1,3); every boundary cell is unbounded; the four finite
ridges each join the center cell to one side-middle cell. -/
def vor3 : VorDiagram :=
  ⟨[(1, 1), (3, 1), (3, 3), (1, 3)],
   [[-1, 0], [-1, 0, 1], [-1, 1], [-1, 0, 3], [0, 1, 2, 3], [-1, 1, 2],
    [-1, 3], [-1, 3, 2], [-1, 2]],
   [0, 1, 2, 3, 4, 5, 6, 7, 8],
   [(0, 1), (1, 2), (3, 4), (4, 5), (6, 7), (7, 8), (0, 3), (3, 6), (1, 4),
    (4, 7), (2, 5), (5, 8)],
   [[-1, 0], [-1, 1], [0, 3], [1, 2], [-1, 3], [-1, 2], [-1, 0], [-1, 3],
    [0, 1], [2, 3], [-1, 1], [-1, 2]]⟩

/-- The sites of the 3x3 test grid, in mesh (row-major) order. -/
def sites3 : List Pt :=
  [(0, 0), (2, 0), (4, 0), (0, 2), (2, 2), (4, 2), (0, 4), (2, 4), (4, 4)]

/-- The hand-checked Voronoi diagram of the thin 2x3 grid of sites
(0,0),(2,0),(4,0),(0,2),(2,2),(4,2): every cell is unbounded; the single
finite ridge (between the two middle sites (2,0) and (2,2)) joins the Voronoi
vertices (1,1) and (3,1). -/
def vor23 : VorDiagram :=
  ⟨[(1, 1), (3, 1)],
   [[-1, 0], [-1, 0, 1], [-1, 1], [-1, 0], [-1, 0, 1], [-1, 1]],
   [0, 1, 2, 3, 4, 5],
   [(0, 1), (1, 2), (3, 4), (4, 5), (0, 3), (2, 5), (1, 4)],
   [[-1, 0], [-1, 1], [-1, 0], [-1, 1], [-1, 0], [-1, 1], [0, 1]]⟩

/-- What it means for an output region list to span the full bounding box of
the grid sites: some polygon vertex reaches each of the four sides of the box
(every polygon lies in the convex hull of its vertices, so a region list that
does not even reach a side cannot cover the box). -/
def spansSiteBox (regs : List (List (List Pt))) (sites : List Pt) : Prop :=
  (∃ v ∈ regs.flatten.flatten, ∀ s ∈ sites, v.1 ≤ s.1) ∧
  (∃ v ∈ regs.flatten.flatten, ∀ s ∈ sites, s.1 ≤ v.1) ∧
  (∃ v ∈ regs.flatten.flatten, ∀ s ∈ sites, v.2 ≤ s.2) ∧
  (∃ v ∈ regs.flatten.flatten, ∀ s ∈ sites, s.2 ≤ v.2)

/-- The property C2 claims of a uniformly-predicted grid: exactly one region,
spanning the full grid bounding box, labeled with the (uniform) predicted
class. -/
def uniformOneRegionClaim (vor : VorDiagram) (sites : List Pt) (Z : List Nat)
    (classNames : List String) (c : Nat) : Prop :=
  ∃ regs cls, create_voronoi_regions vor Z classNames = Except.ok (regs, cls) ∧
    regs.length = 1 ∧ cls = [classNames.getD c ""] ∧ spansSiteBox regs sites

/-- Embedding of `FeatureProcessor.update_original_flags`
(webapp_create_scatter_plot_data.py lines 469-472): `originalCount = none`
models `X_original is None`; otherwise the flags are
`[i < original_count for i in range(len(filtered_labels))]`.  The function
receives only the reference-set size and the filtered length: which points
actually survived the filter cannot influence it. -/
def update_original_flags (originalCount : Option Nat) (filteredLen : Nat) :
    List Bool :=
  match originalCount with
  | some c => (List.range filteredLen).map (fun i => decide (i < c))
  | none => List.replicate filteredLen false

/-- Embedding of `update_original_points_array_for_filtering` via
`estimate_original_points_boolean_array`
(pythonHelpers/create_scatter_plot_data.py lines 472-491), which tests
`i < min(original_count, len(filtered_labels))`. -/
def update_original_points_array_for_filtering (originalCount : Option Nat)
    (filteredLen : Nat) : List Bool :=
  match originalCount with
  | some c => (List.range filteredLen).map (fun i => decide (i < min c filteredLen))
  | none => List.replicate filteredLen false

/-- The decision-boundary part of the response payload: `full` carries the
merged regions (each symbolically as its member-cell polygons), their classes,
and the axis ranges (`generate_for_pca`); `basic` carries only the axis
ranges (`generate_basic_bounds`). -/
inductive Boundary where
  | full (regions : List (List (List Pt))) (regionClasses : List String)
      (xRange yRange : ℚ × ℚ)
  | basic (xRange yRange : ℚ × ℚ)
deriving DecidableEq

/-- The originalData field of the payload: raw row lists when `feature_names is None`,
name-keyed records otherwise (`FeatureProcessor.convert_to_feature_dicts`). -/
inductive OriginalData where
  | raw (rows : List (List ℚ))
  | dicts (rows : List (List (String × ℚ)))
deriving DecidableEq

/-- Embedding of `FeatureProcessor.convert_to_feature_dicts` (lines 395-447):
per row, each feature name is keyed to the row value at its position, with
0.0 for positions beyond the row (the numpy scalar conversions all become the
identity on exact rationals). -/
def convert_to_feature_dicts (rows : List (List ℚ))
    (featureNames : Option (List String)) : OriginalData :=
  match featureNames with
  | none => OriginalData.raw rows
  | some names =>
    OriginalData.dicts
      (rows.map (fun row => names.enum.map (fun jn => (jn.2, row.getD jn.1 0))))

/-- The payload assembled by `ScatterPlotGenerator.generate` (lines 564-571). -/
structure Payload where
  transformedData : List Pt
  originalData : OriginalData
  targets : List Nat
  decisionBoundary : Boundary
  method : String
  originalPointsNeighPointsBoolArray : List Bool
deriving DecidableEq

/-- The deterministic external collaborators of the pipeline, as oracle
functions: the fitted reduction (`scaler.fit_transform` then
`reducer.fit_transform`, a function of method, parameters, data and seed),
the inverse chain (`reducer.inverse_transform` then
`scaler.inverse_transform` of the fitted models), the classifier `predict`,
`scipy.spatial.Voronoi`, and the stochastic primitives of the density filter
(all seeded locally, as in the source). -/
structure Oracles where
  fitTransform : String → ParamBag → List (List ℚ) → Nat → List Pt
  inverse : Pt → List ℚ
  predict : List ℚ → Nat
  voronoi : List Pt → VorDiagram
  choice : Nat → Nat → Nat → List Nat
  kmeans : Nat → List Pt → Nat → List Pt

/-- One scatter-plot request (the arguments of `create_scatter_plot_data_raw`;
the webapp instantiates `DataFilter` with its defaults threshold=2000,
multiplier=5, so those are not request parameters). -/
structure Request where
  method : String
  params : ParamBag
  step : ℚ
  seed : Nat
  X : List (List ℚ)
  y : List Nat
  classNames : List String
  featureNames : Option (List String)
  Xorig : Option (List (List ℚ))
  yorig : Option (List Nat)

/-- Embedding of `FeatureProcessor.combine_datasets` (lines 364-393): the reference rows
are prepended when both `X_original` and `y_original` are supplied. -/
def combinedX (r : Request) : List (List ℚ) :=
  match r.Xorig, r.yorig with
  | some Xo, some _ => Xo ++ r.X
  | _, _ => r.X

/-- The combined label vector of `combine_datasets`. -/
def combinedY (r : Request) : List Nat :=
  match r.Xorig, r.yorig with
  | some _, some yo => yo ++ r.y
  | _, _ => r.y

/-- The one projector fit across the combined set
(`self.reducer.fit_transform(X_combined)`; the reducer lowercases the method
name at construction). -/
def scatterCoords (o : Oracles) (r : Request) : List Pt :=
  o.fitTransform (pyLower r.method) r.params (combinedX r) r.seed

/-- The density filter applied to the combined projected set, with the
webapp's `DataFilter` defaults threshold=2000, multiplier=5. -/
def scatterFiltered (o : Oracles) (r : Request) :
    List Pt × List (List ℚ) × List Nat :=
  filter_by_class o.choice o.kmeans r.seed 2000 5 (scatterCoords o r)
    (combinedX r) (combinedY r)

/-- The range `[X[:,0].min() - 1, X[:,0].max() + 1]` of the projected coordinates. -/
def xboundsOf (coords : List Pt) : ℚ × ℚ :=
  (((coords.map Prod.fst).min?).getD 0 - 1,
   ((coords.map Prod.fst).max?).getD 0 + 1)

/-- The range `[X[:,1].min() - 1, X[:,1].max() + 1]` of the projected coordinates. -/
def yboundsOf (coords : List Pt) : ℚ × ℚ :=
  (((coords.map Prod.snd).min?).getD 0 - 1,
   ((coords.map Prod.snd).max?).getD 0 + 1)

/-- The boundary mesh over the unfiltered projected set. -/
def scatterGrid (o : Oracles) (r : Request) : List Pt :=
  build_grid (xboundsOf (scatterCoords o r)).1 (xboundsOf (scatterCoords o r)).2
    (yboundsOf (scatterCoords o r)).1 (yboundsOf (scatterCoords o r)).2 r.step

/-- The mesh points mapped back to original feature space
(`reducer.inverse_transform` then `scaler.inverse_transform`): exactly the
rows handed to the classifier in the PCA branch. -/
def gridOriginal (o : Oracles) (r : Request) : List (List ℚ) :=
  (scatterGrid o r).map o.inverse

/-- The predicted classes `Z = model.predict(grid_original)`. -/
def gridClasses (o : Oracles) (r : Request) : List Nat :=
  (gridOriginal o r).map o.predict

/-- Embedding of `ScatterPlotGenerator.generate` /
`create_scatter_plot_data_raw` (webapp_create_scatter_plot_data.py lines
509-626).  The second component of the result records the rows on which the
external classifier was queried (the grid rows of the PCA branch, nothing
otherwise) — the instrumentation needed to state that non-invertible methods
never query the classifier on grid points. -/
def scatter_generate (o : Oracles) (r : Request) :
    Except String (Payload × List (List ℚ)) :=
  if can_generate_boundary (pyLower r.method) then
    match create_voronoi_regions (o.voronoi (scatterGrid o r)) (gridClasses o r)
        r.classNames with
    | Except.error e => Except.error e
    | Except.ok (regs, cls) =>
      Except.ok
        (⟨(scatterFiltered o r).1,
          convert_to_feature_dicts (scatterFiltered o r).2.1 r.featureNames,
          (scatterFiltered o r).2.2,
          Boundary.full regs cls (xboundsOf (scatterCoords o r))
            (yboundsOf (scatterCoords o r)),
          pyLower r.method,
          update_original_flags (r.Xorig.map List.length)
            (scatterFiltered o r).2.2.length⟩,
         gridOriginal o r)
  else
    Except.ok
      (⟨(scatterFiltered o r).1,
        convert_to_feature_dicts (scatterFiltered o r).2.1 r.featureNames,
        (scatterFiltered o r).2.2,
        Boundary.basic (xboundsOf (scatterCoords o r))
          (yboundsOf (scatterCoords o r)),
        pyLower r.method,
        update_original_flags (r.Xorig.map List.length)
          (scatterFiltered o r).2.2.length⟩,
       [])

/-- The pipeline run against an explicit numpy process-global RNG state: the
source draws all randomness from freshly seeded local generators
(`np.random.RandomState(self.random_state)` inside the filter,
`random_state=...` on KMeans and on every reducer) and never touches the
global stream, so a run leaves the ambient state untouched and its output is
a function of the request and oracles alone. -/
def scatter_generate_run (o : Oracles) (r : Request) (g : List Nat) :
    Except String (Payload × List (List ℚ)) × List Nat :=
  (scatter_generate o r, g)

/-- Concrete oracle instance used to instantiate theorems: projects each row
to its first two entries, inverts a point to its coordinate list, predicts
class 0, and returns the 3x3 test diagram. -/
def oraclesW : Oracles :=
  ⟨fun _ _ X _ => X.map (fun row => (row.getD 0 0, row.getD 1 0)),
   fun p => [p.1, p.2], fun _ => 0, fun _ => vor3, choiceW, kmeansW⟩

/-- Concrete t-SNE request used to instantiate theorems. -/
def requestW : Request :=
  ⟨"TSNE", {}, 1, 42, [[0, 0], [1, 1]], [0, 1], ["c0"], none, none, none⟩

/- === Supporting lemmas === -/

theorem argminAux_lt (xs : List ℚ) (bv : ℚ) (i best : Nat) (h : best < i) :
    argminAux xs bv i best < i + xs.length := by
  induction xs generalizing bv i best with
  | nil => simpa [argminAux] using h
  | cons x xs ih =>
    simp only [argminAux, List.length_cons]
    by_cases hc : x < bv
    · rw [if_pos hc]
      have := ih x (i + 1) i (Nat.lt_succ_self i)
      omega
    · rw [if_neg hc]
      have := ih bv (i + 1) best (Nat.lt_succ_of_lt h)
      omega

theorem argminIdx_lt (l : List ℚ) (h : l ≠ []) : argminIdx l < l.length := by
  match l with
  | [] => exact absurd rfl h
  | x :: xs =>
    have := argminAux_lt xs x 1 0 Nat.one_pos
    simp only [argminIdx, List.length_cons]
    omega

theorem getD_mem {α : Type} (l : List α) (n : Nat) (d : α) (h : n < l.length) :
    l.getD n d ∈ l := by
  rw [List.getD_eq_getElem l d h]
  exact l.getElem_mem h

theorem label_of_mem_classIndices {labels : List Nat} {cls i : Nat}
    (h : i ∈ classIndices labels cls) : labels.getD i 0 = cls := by
  have := (List.mem_filter.1 h).2
  simpa using this

theorem mem_labels_of_mem_classIndices {labels : List Nat} {cls i : Nat}
    (h : i ∈ classIndices labels cls) : cls ∈ labels := by
  have hi : i ∈ List.range labels.length := (List.mem_filter.1 h).1
  have hlt : i < labels.length := List.mem_range.1 hi
  have hlab := label_of_mem_classIndices h
  rw [← hlab]
  exact getD_mem labels i 0 hlt

theorem classIndices_eq_nil_of_not_mem {labels : List Nat} {cls : Nat}
    (h : cls ∉ labels) : classIndices labels cls = [] := by
  cases hne : classIndices labels cls with
  | nil => rfl
  | cons a l =>
    exact absurd (mem_labels_of_mem_classIndices (hne ▸ List.mem_cons_self a l)) h

theorem sorted_classIndices (labels : List Nat) (cls : Nat) :
    List.Sorted (· ≤ ·) (classIndices labels cls) :=
  (List.sorted_le_range labels.length).filter _

theorem mem_selectedForClass
    {choice : Nat → Nat → Nat → List Nat} {kmeans : Nat → List Pt → Nat → List Pt}
    {seed t m : Nat} {points : List Pt} {labels : List Nat} {cls i : Nat}
    (h : i ∈ selectedForClass choice kmeans seed t m points labels cls) :
    i ∈ classIndices labels cls := by
  unfold selectedForClass at h
  by_cases hb : t < (classPoints points labels cls).length
  · rw [if_pos hb] at h
    obtain ⟨c, _, hc⟩ := List.mem_map.1 h
    subst hc
    apply getD_mem
    have hne : (classPoints points labels cls).map (fun p => distSq p c) ≠ [] := by
      intro hnil
      have : (classPoints points labels cls).length = 0 := by
        have := congrArg List.length hnil
        simpa using this
      omega
    have := argminIdx_lt _ hne
    have hlen : ((classPoints points labels cls).map (fun p => distSq p c)).length
        = (classIndices labels cls).length := by
      simp [classPoints]
    omega
  · rw [if_neg hb] at h
    exact h

theorem label_of_mem_selectedForClass
    {choice : Nat → Nat → Nat → List Nat} {kmeans : Nat → List Pt → Nat → List Pt}
    {seed t m : Nat} {points : List Pt} {labels : List Nat} {cls i : Nat}
    (h : i ∈ selectedForClass choice kmeans seed t m points labels cls) :
    labels.getD i 0 = cls :=
  label_of_mem_classIndices (mem_selectedForClass h)

theorem length_selectedForClass_le
    (choice : Nat → Nat → Nat → List Nat) (kmeans : Nat → List Pt → Nat → List Pt)
    (seed t m : Nat) (points : List Pt) (labels : List Nat) (cls : Nat)
    (hk : ∀ s pts k, (kmeans s pts k).length = k)
    (hbig : t < (classIndices labels cls).length) :
    (selectedForClass choice kmeans seed t m points labels cls).length ≤ t := by
  unfold selectedForClass
  have hb : t < (classPoints points labels cls).length := by
    simpa [classPoints] using hbig
  rw [if_pos hb]
  rw [List.length_map, hk]
  exact Nat.min_le_left _ _

theorem count_map_flatMap_le (order : List Nat) (f : Nat → List Nat)
    (lab : Nat → Nat) (cls : Nat)
    (hf : ∀ c ∈ order, ∀ i ∈ f c, lab i = c) (hnd : order.Nodup) :
    ((order.flatMap f).map lab).count cls ≤ (f cls).length := by
  induction order with
  | nil => simp
  | cons c rest ih =>
    have hfc : ∀ i ∈ f c, lab i = c := hf c (List.mem_cons_self _ _)
    have hrest : ∀ c' ∈ rest, ∀ i ∈ f c', lab i = c' :=
      fun c' hc' => hf c' (List.mem_cons_of_mem _ hc')
    have hnd' : rest.Nodup := (List.nodup_cons.1 hnd).2
    simp only [List.flatMap_cons, List.map_append, List.count_append]
    by_cases hceq : c = cls
    · subst hceq
      have h1 : ((f c).map lab).count c ≤ (f c).length := by
        have := List.count_le_length (a := c) (l := (f c).map lab)
        simpa using this
      have h2 : ((rest.flatMap f).map lab).count c = 0 := by
        rw [List.count_eq_zero]
        intro hmem
        obtain ⟨i, hi, hlabi⟩ := List.mem_map.1 hmem
        obtain ⟨c', hc', hic'⟩ := List.mem_flatMap.1 hi
        have hlc : lab i = c' := hrest c' hc' i hic'
        rw [hlc] at hlabi
        exact (List.nodup_cons.1 hnd).1 (hlabi ▸ hc')
      omega
    · have h1 : ((f c).map lab).count cls = 0 := by
        rw [List.count_eq_zero]
        intro hmem
        obtain ⟨i, hi, hlabi⟩ := List.mem_map.1 hmem
        exact hceq ((hfc i hi).symm.trans hlabi)
      have := ih hrest hnd'
      omega

theorem flatMap_ite_single (f : Nat → List Nat) (cls : Nat) (order : List Nat)
    (hnd : order.Nodup) :
    (order.flatMap (fun c => if c = cls then f cls else [])) =
      if cls ∈ order then f cls else [] := by
  induction order with
  | nil => simp
  | cons c rest ih =>
    have hnd' : rest.Nodup := (List.nodup_cons.1 hnd).2
    simp only [List.flatMap_cons]
    by_cases hc : c = cls
    · subst hc
      have hcr : c ∉ rest := (List.nodup_cons.1 hnd).1
      rw [if_pos rfl, if_pos (List.mem_cons_self _ _)]
      have hznil : (rest.flatMap fun c' => if c' = c then f c else []) = [] := by
        apply List.flatMap_eq_nil_iff.2
        intro c' hc'
        rw [if_neg]
        rintro rfl
        exact absurd hc' hcr
      rw [hznil, List.append_nil]
    · rw [if_neg hc, List.nil_append, ih hnd']
      by_cases hm : cls ∈ rest
      · rw [if_pos hm, if_pos (List.mem_cons_of_mem _ hm)]
      · rw [if_neg hm, if_neg]
        intro hmem
        rcases List.mem_cons.1 hmem with h | h
        · exact hc h.symm
        · exact hm h

theorem mem_uniqueSorted {l : List Nat} {cls : Nat} :
    cls ∈ uniqueSorted l ↔ cls ∈ l := by
  unfold uniqueSorted
  rw [List.mem_insertionSort, List.mem_dedup]

theorem nodup_uniqueSorted (l : List Nat) : (uniqueSorted l).Nodup :=
  ((List.perm_insertionSort _ _).nodup_iff).2 l.nodup_dedup

theorem flatMap_congr_mem {α β : Type} {l : List α} {f g : α → List β}
    (h : ∀ a ∈ l, f a = g a) : l.flatMap f = l.flatMap g := by
  induction l with
  | nil => rfl
  | cons a l ih =>
    simp only [List.flatMap_cons]
    rw [h a (List.mem_cons_self _ _), ih (fun a ha => h a (List.mem_cons_of_mem _ ha))]

/-- C1: for every input (points, originalRows, labels), positive threshold `t`
and positive multiplier `m` (KMeans cannot be fit with zero clusters), assuming
only the KMeans contract that fitting with `n_clusters = k` yields `k` centers:
(1) every class whose input count exceeds `t` contributes at most `t` points to
the filtered output; (2) every class with at most `t` points passes through
unchanged (the output indices of that class are exactly its input indices);
(3) the combined output is ordered by ascending original input index; and
(4) the result is independent of the per-class processing order: any
permutation of the class processing order yields the same sorted index list. -/
theorem C1_density_filter_bound_order
    (choice : Nat → Nat → Nat → List Nat) (kmeans : Nat → List Pt → Nat → List Pt)
    (seed t m : Nat) (points : List Pt) (original : List (List ℚ))
    (labels : List Nat)
    (hk : ∀ s pts k, (kmeans s pts k).length = k) (_ht : 0 < t) (_hm : 0 < m) :
    (∀ cls, t < (classIndices labels cls).length →
      ((filter_by_class choice kmeans seed t m points original labels).2.2.count cls ≤ t)) ∧
    (∀ cls, (classIndices labels cls).length ≤ t →
      (selectedIndices choice kmeans seed t m points labels).filter
        (fun i => labels.getD i 0 == cls) = classIndices labels cls) ∧
    List.Sorted (· ≤ ·) (selectedIndices choice kmeans seed t m points labels) ∧
    (∀ order : List Nat, order.Perm (uniqueSorted labels) →
      List.insertionSort (· ≤ ·)
        (order.flatMap (selectedForClass choice kmeans seed t m points labels)) =
        selectedIndices choice kmeans seed t m points labels) := by
  have hf : ∀ c ∈ uniqueSorted labels,
      ∀ i ∈ selectedForClass choice kmeans seed t m points labels c,
        labels.getD i 0 = c :=
    fun c _ i hi => label_of_mem_selectedForClass hi
  refine ⟨?_, ?_, List.sorted_insertionSort _ _, ?_⟩
  · intro cls hbig
    have heq : (filter_by_class choice kmeans seed t m points original labels).2.2 =
        (selectedIndices choice kmeans seed t m points labels).map
          (fun i => labels.getD i 0) := rfl
    rw [heq]
    have hperm :
        ((selectedIndices choice kmeans seed t m points labels).map
            (fun i => labels.getD i 0)).count cls =
        (((uniqueSorted labels).flatMap
              (selectedForClass choice kmeans seed t m points labels)).map
            (fun i => labels.getD i 0)).count cls :=
      ((List.perm_insertionSort _ _).map _).count_eq cls
    rw [hperm]
    calc (((uniqueSorted labels).flatMap
              (selectedForClass choice kmeans seed t m points labels)).map
            (fun i => labels.getD i 0)).count cls
        ≤ (selectedForClass choice kmeans seed t m points labels cls).length :=
          count_map_flatMap_le _ _ _ _ hf (nodup_uniqueSorted labels)
      _ ≤ t := length_selectedForClass_le choice kmeans seed t m points labels cls hk hbig
  · intro cls hsmall
    have hsmall' : selectedForClass choice kmeans seed t m points labels cls =
        classIndices labels cls := by
      unfold selectedForClass
      rw [if_neg]
      simp only [classPoints, List.length_map]
      omega
    have hstepA : (((uniqueSorted labels).flatMap
          (selectedForClass choice kmeans seed t m points labels)).filter
            (fun i => labels.getD i 0 == cls)) = classIndices labels cls := by
      rw [List.filter_flatMap]
      have hpt : ∀ c ∈ uniqueSorted labels,
          (selectedForClass choice kmeans seed t m points labels c).filter
              (fun i => labels.getD i 0 == cls) =
            (if c = cls then selectedForClass choice kmeans seed t m points labels cls
             else []) := by
        intro c _
        by_cases hc : c = cls
        · subst hc
          rw [if_pos rfl]
          apply List.filter_eq_self.2
          intro i hi
          simpa using label_of_mem_selectedForClass hi
        · rw [if_neg hc]
          apply List.filter_eq_nil_iff.2
          intro i hi
          simpa using fun hlab => hc ((label_of_mem_selectedForClass hi).symm.trans hlab)
      rw [flatMap_congr_mem hpt,
        flatMap_ite_single _ cls _ (nodup_uniqueSorted labels)]
      by_cases hmem : cls ∈ uniqueSorted labels
      · rw [if_pos hmem, hsmall']
      · rw [if_neg hmem,
          classIndices_eq_nil_of_not_mem (fun hl => hmem (mem_uniqueSorted.2 hl))]
    have hpermB :
        ((selectedIndices choice kmeans seed t m points labels).filter
            (fun i => labels.getD i 0 == cls)).Perm (classIndices labels cls) := by
      have := (List.perm_insertionSort (· ≤ ·)
          ((uniqueSorted labels).flatMap
            (selectedForClass choice kmeans seed t m points labels))).filter
          (fun i => labels.getD i 0 == cls)
      rw [hstepA] at this
      exact this
    exact List.eq_of_perm_of_sorted hpermB
      ((List.sorted_insertionSort _ _).filter _)
      (sorted_classIndices labels cls)
  · intro order hperm
    have hp : (List.insertionSort (· ≤ ·)
        (order.flatMap (selectedForClass choice kmeans seed t m points labels))).Perm
          (selectedIndices choice kmeans seed t m points labels) :=
      (List.perm_insertionSort _ _).trans
        ((hperm.flatMap_right
            (selectedForClass choice kmeans seed t m points labels)).trans
          (List.perm_insertionSort _ _).symm)
    exact List.eq_of_perm_of_sorted hp (List.sorted_insertionSort _ _)
      (List.sorted_insertionSort _ _)

/-- C1 witness: the bound/ordering theorem applied to a concrete input
(three points, class 0 of size 2 exceeding threshold 1, class 1 of size 1
passing through), with concrete sampling and KMeans oracles. -/
theorem C1_density_filter_bound_order_witness :
    (∀ cls, 1 < (classIndices [0, 0, 1] cls).length →
      ((filter_by_class choiceW kmeansW 42 1 1 [(0, 0), (1, 0), (5, 5)]
          [[], [], []] [0, 0, 1]).2.2.count cls ≤ 1)) ∧
    (∀ cls, (classIndices [0, 0, 1] cls).length ≤ 1 →
      (selectedIndices choiceW kmeansW 42 1 1 [(0, 0), (1, 0), (5, 5)]
          [0, 0, 1]).filter (fun i => [0, 0, 1].getD i 0 == cls) =
        classIndices [0, 0, 1] cls) ∧
    List.Sorted (· ≤ ·)
      (selectedIndices choiceW kmeansW 42 1 1 [(0, 0), (1, 0), (5, 5)] [0, 0, 1]) ∧
    (∀ order : List Nat, order.Perm (uniqueSorted [0, 0, 1]) →
      List.insertionSort (· ≤ ·)
        (order.flatMap (selectedForClass choiceW kmeansW 42 1 1
          [(0, 0), (1, 0), (5, 5)] [0, 0, 1])) =
        selectedIndices choiceW kmeansW 42 1 1 [(0, 0), (1, 0), (5, 5)] [0, 0, 1]) :=
  C1_density_filter_bound_order choiceW kmeansW 42 1 1 [(0, 0), (1, 0), (5, 5)]
    [[], [], []] [0, 0, 1]
    (fun _ _ k => by simp [kmeansW]) (by decide) (by decide)

/-- C4 counterexample: with a 10-row sample matrix and user perplexity 30, the
configured perplexity is the floor value 5.0, which is not strictly below
(10 - 1) / 3 = 3: the claimed strict bound fails. -/
theorem C4_perplexity_strict_bound_counterexample :
    ¬ (∀ (n : Nat) (p : ℚ),
        tsne_configured_perplexity (some p) (some n) < ((n : ℚ) - 1) / 3) := by
  intro h
  have := h 10 30
  norm_num [tsne_configured_perplexity] at this

/-- C4 (amended): the configured t-SNE perplexity equals
`max(5.0, min(p, (n - 1) / 3))`; whenever the upper bound `(n - 1) / 3` is at
least the floor value 5.0 (that is, n ≥ 16), the configured value is clamped
to at most `(n - 1) / 3` (with equality rather than strict inequality when the
user value reaches the bound); the construction never fails. -/
theorem C4_perplexity_clamped (n : Nat) (p : ℚ) (h : 5 ≤ ((n : ℚ) - 1) / 3) :
    tsne_configured_perplexity (some p) (some n) =
      max 5 (min p (((n : ℚ) - 1) / 3)) ∧
    tsne_configured_perplexity (some p) (some n) ≤ ((n : ℚ) - 1) / 3 ∧
    5 ≤ tsne_configured_perplexity (some p) (some n) := by
  refine ⟨rfl, ?_, le_max_left _ _⟩
  exact max_le h (min_le_right _ _)

/-- C4 witness: the clamping theorem applied at n = 16 samples and user
perplexity 30, where the configured value is exactly the bound 5. -/
theorem C4_perplexity_clamped_witness :
    tsne_configured_perplexity (some 30) (some 16) =
      max 5 (min 30 ((((16 : Nat) : ℚ) - 1) / 3)) ∧
    tsne_configured_perplexity (some 30) (some 16) ≤ (((16 : Nat) : ℚ) - 1) / 3 ∧
    5 ≤ tsne_configured_perplexity (some 30) (some 16) :=
  C4_perplexity_clamped 16 30 (by norm_num)

/-- C6 counterexample: the claim that every unrecognized method name falls
back to PCA in the projector construction fails on the repository: the legacy
`preprocess_data` dispatch raises `ValueError` for method "foo" instead of
completing with PCA. -/
theorem C6_fallback_counterexample :
    ¬ (∀ (method : String) (n : Nat) (params : ParamBag) (seed : Nat)
        (nSamples : Option Nat),
        pyLower method ∉ ["pca", "tsne", "umap", "mds"] →
        create_dimensionality_reducer method n params seed nSamples =
          Reducer.pca n seed none none none none ∧
        preprocess_data_dispatch method = Except.ok SrcReducer.pca) := by
  intro h
  have hfoo := (h "foo" 2 {} 42 none (by decide)).2
  have hval : preprocess_data_dispatch "foo" =
      Except.error "Unsupported method: foo. Use 'pca', 'tsne', 'umap', or 'mds'." := rfl
  rw [hval] at hfoo
  exact Except.noConfusion hfoo

/-- C6 (amended): for every method name outside {pca, tsne, umap, mds}, the
webapp `create_dimensionality_reducer` falls back to a bare
`PCA(n_components, random_state)` reducer, while the legacy `preprocess_data`
dispatch instead raises `ValueError("Unsupported method: ...")`. -/
theorem C6_unknown_method_behavior (method : String) (n : Nat) (params : ParamBag)
    (seed : Nat) (nSamples : Option Nat)
    (h : pyLower method ∉ ["pca", "tsne", "umap", "mds"]) :
    create_dimensionality_reducer method n params seed nSamples =
      Reducer.pca n seed none none none none ∧
    preprocess_data_dispatch method =
      Except.error
        ("Unsupported method: " ++ method ++ ". Use 'pca', 'tsne', 'umap', or 'mds'.") := by
  have h1 : pyLower method ≠ "pca" := fun he => h (by rw [he]; decide)
  have h2 : pyLower method ≠ "tsne" := fun he => h (by rw [he]; decide)
  have h3 : pyLower method ≠ "umap" := fun he => h (by rw [he]; decide)
  have h4 : pyLower method ≠ "mds" := fun he => h (by rw [he]; decide)
  constructor
  · simp [create_dimensionality_reducer, h1, h2, h3, h4]
  · simp [preprocess_data_dispatch, h1, h2, h3, h4]

/-- C6 witness: the unknown-method theorem applied at method "foo". -/
theorem C6_unknown_method_behavior_witness :
    create_dimensionality_reducer "foo" 2 {} 42 none =
      Reducer.pca 2 42 none none none none ∧
    preprocess_data_dispatch "foo" =
      Except.error
        ("Unsupported method: " ++ "foo" ++ ". Use 'pca', 'tsne', 'umap', or 'mds'.") :=
  C6_unknown_method_behavior "foo" 2 {} 42 none (by decide)

/-- C5 counterexample: a degenerate two-vertex cell without the
point-at-infinity sentinel passes the validity check (and a polygon would then
be built from it), so the claim that every cell with fewer than 3 vertices is
discarded fails. -/
theorem C5_degenerate_discard_counterexample :
    ¬ (∀ region : List Int, ((-1) ∈ region ∨ region.length < 3) →
        is_valid_region region = false) := by
  intro h
  have := h [0, 1] (Or.inr (by decide))
  exact absurd this (by decide)

/-- C5 (amended): the validity check discards exactly the cells that are
unbounded (contain the point-at-infinity sentinel -1) or empty; a cell with
one or two vertices and no sentinel is kept. -/
theorem C5_validity_characterization (region : List Int) :
    is_valid_region region = false ↔ ((-1) ∈ region ∨ region = []) := by
  simp only [is_valid_region, List.contains_eq_any_beq, Bool.and_eq_false_iff,
    Bool.not_eq_false', List.any_eq_true, beq_iff_eq, decide_eq_false_iff_not,
    Nat.not_lt, Nat.le_zero, List.length_eq_zero]
  constructor
  · rintro (⟨x, hx, hbeq⟩ | hnil)
    · exact Or.inl (hbeq ▸ hx)
    · exact Or.inr hnil
  · rintro (hmem | hnil)
    · exact Or.inl ⟨-1, hmem, rfl⟩
    · exact Or.inr hnil

theorem arange_length (a b step : ℚ) :
    (arange a b step).length = (⌈(b - a) / step⌉).toNat := by
  unfold arange
  rw [List.length_map, List.length_range]

theorem build_grid_length (xmin xmax ymin ymax step : ℚ) :
    (build_grid xmin xmax ymin ymax step).length =
      gridCellCount xmin xmax ymin ymax step := by
  unfold build_grid
  rw [List.length_flatMap]
  have h1 : (List.length ∘ fun yv : ℚ =>
        (arange xmin xmax step).map (fun xv => ((xv, yv) : Pt)))
      = fun _ : ℚ => (arange xmin xmax step).length :=
    funext fun yv => by simp
  rw [h1, List.map_const', List.sum_replicate, smul_eq_mul, arange_length,
    arange_length]
  unfold gridCellCount
  exact Nat.mul_comm _ _

theorem gridCellCount_concrete : gridCellCount 0 2 0 2 1 = 4 := by
  have hc : (⌈(((2 : ℚ) - 0) / 1)⌉) = 2 := by norm_num
  unfold gridCellCount
  rw [hc]
  decide

/-- C7 counterexample: no ceiling is consulted before mesh allocation — for a
cell count of 4 exceeding a ceiling of 0, the mesh generation still produces
the full (nonempty) mesh instead of failing fast with no output. -/
theorem C7_resource_guard_counterexample :
    ¬ (∀ (ceiling : Nat) (xmin xmax ymin ymax step : ℚ),
        ceiling < gridCellCount xmin xmax ymin ymax step →
        build_grid xmin xmax ymin ymax step = []) := by
  intro h
  have hcnt : (0 : Nat) < gridCellCount 0 2 0 2 1 := by
    rw [gridCellCount_concrete]
    decide
  have hnil := h 0 0 2 0 2 1 hcnt
  have hlen := build_grid_length 0 2 0 2 1
  rw [hnil, gridCellCount_concrete] at hlen
  exact absurd hlen (by decide)

/-- C7 (amended): the code has no resource guard at all — for every bounds and
step, the boundary mesh is unconditionally allocated in full, with exactly
`⌈(xMax - xMin)/step⌉ * ⌈(yMax - yMin)/step⌉` cells; no ceiling parameter
exists and no ResourceExceeded condition is ever raised before or during mesh
allocation. -/
theorem C7_no_resource_guard (xmin xmax ymin ymax step : ℚ) :
    (build_grid xmin xmax ymin ymax step).length =
      gridCellCount xmin xmax ymin ymax step :=
  build_grid_length xmin xmax ymin ymax step

/-- C10: after density filtering, the re-derived is-reference flag list is
determined by the two lengths alone (the embedded function receives only
them): the flag at position `i` is true exactly when
`i < min(referenceCount, filteredLength)`, every flag is false when no
reference set is supplied, the list has the filtered length, and the webapp
(`update_original_flags`) and legacy
(`update_original_points_array_for_filtering`) implementations agree. -/
theorem C10_reference_flags_positional (c n i : Nat) :
    (update_original_flags (some c) n).getD i false = decide (i < min c n) ∧
    (update_original_flags none n).getD i false = false ∧
    (update_original_flags (some c) n).length = n ∧
    update_original_points_array_for_filtering (some c) n =
      update_original_flags (some c) n ∧
    update_original_points_array_for_filtering none n =
      update_original_flags none n := by
  refine ⟨?_, ?_, by simp [update_original_flags], ?_, rfl⟩
  · by_cases h : i < n
    · have hlen : i < ((List.range n).map (fun j => decide (j < c))).length := by
        simpa using h
      rw [update_original_flags, List.getD_eq_getElem _ _ hlen]
      simp only [List.getElem_map, List.getElem_range]
      exact decide_eq_decide.2 (by omega)
    · have hlen : ((List.range n).map (fun j => decide (j < c))).length ≤ i := by
        simpa using Nat.le_of_not_lt h
      rw [update_original_flags, List.getD_eq_default _ _ hlen]
      have hnt : ¬ i < min c n := by omega
      simp [hnt]
  · rcases Nat.lt_or_ge i n with h | h
    · rw [update_original_flags, List.getD_eq_getElem _ _ (by simpa using h)]
      simp
    · rw [update_original_flags, List.getD_eq_default _ _ (by simpa using h)]
  · simp only [update_original_points_array_for_filtering, update_original_flags]
    apply List.map_congr_left
    intro a ha
    have : a < n := List.mem_range.1 ha
    exact decide_eq_decide.2 (by omega)

theorem dedup_const {Z : List Nat} {c : Nat} (hZ : ∀ z ∈ Z, z = c)
    (hne : Z ≠ []) : Z.dedup = [c] := by
  induction Z with
  | nil => exact absurd rfl hne
  | cons a rest ih =>
    have ha : a = c := hZ a (List.mem_cons_self _ _)
    subst ha
    by_cases hmem : a ∈ rest
    · rw [List.dedup_cons_of_mem hmem]
      refine ih (fun z hz => hZ z (List.mem_cons_of_mem _ hz)) ?_
      intro hnil
      rw [hnil] at hmem
      exact absurd hmem (List.not_mem_nil a)
    · have hrest : rest = [] := by
        cases rest with
        | nil => rfl
        | cons b rb =>
          have hb : b = a := hZ b (List.mem_cons_of_mem _ (List.mem_cons_self _ _))
          exact absurd (hb ▸ List.mem_cons_self b rb) hmem
      subst hrest
      simp

theorem uniqueSorted_const {Z : List Nat} {c : Nat} (hZ : ∀ z ∈ Z, z = c)
    (hne : Z ≠ []) : uniqueSorted Z = [c] := by
  unfold uniqueSorted
  rw [dedup_const hZ hne]
  simp [List.insertionSort, List.orderedInsert]

theorem remapped_all_zero {Z : List Nat} {c : Nat} (hZ : ∀ z ∈ Z, z = c) :
    ∀ x ∈ Z.map (fun z => (uniqueSorted Z).indexOf z), x = 0 := by
  intro x hx
  obtain ⟨z, hz, rfl⟩ := List.mem_map.1 hx
  have hzc := hZ z hz
  subst hzc
  rw [uniqueSorted_const hZ (List.ne_nil_of_mem hz)]
  exact List.indexOf_cons_self _ _

theorem getD_zero_of_all {l : List Nat} (h : ∀ x ∈ l, x = 0) (i : Nat) :
    l.getD i 0 = 0 := by
  rcases Nat.lt_or_ge i l.length with hlt | hge
  · rw [List.getD_eq_getElem _ _ hlt]
    exact h _ (l.getElem_mem hlt)
  · rw [List.getD_eq_default _ _ hge]

theorem classMap_value_foldl (vor : VorDiagram) (Zr : List Nat)
    (classNames : List String) (hZr : ∀ i, Zr.getD i 0 = 0)
    (l : List (Nat × Nat)) (st : RegState)
    (hst : ∀ e ∈ st.classMap, e.2 = classNames.getD 0 "") :
    ∀ e ∈ (l.foldl (processRegion vor Zr classNames) st).classMap,
      e.2 = classNames.getD 0 "" := by
  induction l generalizing st with
  | nil => simpa using hst
  | cons pr rest ih =>
    rw [List.foldl_cons]
    apply ih
    intro e he
    unfold processRegion at he
    by_cases h1 : is_valid_region (vor.regions.getD pr.2 []) = true
    · rw [if_pos h1] at he
      by_cases h2 : Zr.getD pr.1 0 < classNames.length
      · rw [if_pos h2] at he
        rcases List.mem_cons.1 he with rfl | hmem
        · show classNames.getD (Zr.getD pr.1 0) "" = classNames.getD 0 ""
          rw [hZr pr.1]
        · exact hst _ hmem
      · rw [if_neg h2] at he
        exact hst _ he
    · rw [if_neg h1] at he
      exact hst _ he

theorem classMap_value_voronoiState (vor : VorDiagram) (Z : List Nat)
    (classNames : List String) (c : Nat) (hZ : ∀ z ∈ Z, z = c) :
    ∀ e ∈ (voronoiState vor Z classNames).classMap,
      e.2 = classNames.getD 0 "" := by
  unfold voronoiState processVoronoiRegions
  exact classMap_value_foldl vor _ classNames
    (getD_zero_of_all (remapped_all_zero hZ)) _ _
    (fun e he => absurd he (List.not_mem_nil e))

theorem mem_of_lookup_eq_some {α β : Type} [BEq α] [LawfulBEq α]
    {l : List (α × β)} {k : α} {v : β} (h : l.lookup k = some v) :
    (k, v) ∈ l := by
  induction l with
  | nil => simp at h
  | cons p rest ih =>
    match p with
    | (k2, v2) =>
      rw [List.lookup_cons] at h
      cases hbeq : (k == k2) with
      | true =>
        rw [hbeq] at h
        have hk : k = k2 := eq_of_beq hbeq
        have hv : v2 = v := Option.some.inj h
        rw [hk, hv]
        exact List.mem_cons_self _ _
      | false =>
        rw [hbeq] at h
        exact List.mem_cons_of_mem _ (ih h)

theorem mergeOne_of_lookup {comp : List Nat} {polygons : List (List Pt)}
    {indexMap : List (Nat × Nat)} {classMap : List (Nat × String)} {v : String}
    (h : classMap.lookup (comp.headD 0) = some v) :
    mergeOne comp polygons indexMap classMap =
      Except.ok
        (comp.filterMap (fun i =>
            (indexMap.lookup i).map (fun pidx => polygons.getD pidx [])),
         v) := by
  unfold mergeOne
  rw [h]

theorem mergeComponents_singleton {comp : List Nat} {polygons : List (List Pt)}
    {indexMap : List (Nat × Nat)} {classMap : List (Nat × String)} {v : String}
    (h : classMap.lookup (comp.headD 0) = some v) :
    mergeComponents [comp] polygons indexMap classMap =
      Except.ok
        ([comp.filterMap (fun i =>
            (indexMap.lookup i).map (fun pidx => polygons.getD pidx []))],
         [v]) := by
  simp only [mergeComponents]
  rw [mergeOne_of_lookup h]

/-- C2 counterexample: on the 3x3 uniform grid the extractor emits exactly one
region, but (a) with all cells predicted as class 1 the region is labeled
"c0", not "c1" — the dense remap sends the single present class to index 0 —
and (b) even with class 0 the region consists of the single bounded center
cell with vertices in [1,3]x[1,3], which does not reach the site bounding box
[0,4]x[0,4]: the claim fails on both the label and the full-box span. -/
theorem C2_uniform_full_box_counterexample :
    (¬ uniformOneRegionClaim vor3 sites3 (List.replicate 9 1) ["c0", "c1"] 1) ∧
    (¬ uniformOneRegionClaim vor3 sites3 (List.replicate 9 0) ["c0", "c1"] 0) := by
  constructor
  · rintro ⟨regs, cls, hok, hlen, hcls, hspan⟩
    have hcomp : create_voronoi_regions vor3 (List.replicate 9 1) ["c0", "c1"] =
        Except.ok ([[[((1 : ℚ), (1 : ℚ)), (3, 1), (3, 3), (1, 3)]]], ["c0"]) := rfl
    rw [hcomp] at hok
    injection hok with h
    injection h with h1 h2
    rw [← h2] at hcls
    exact absurd hcls (by decide)
  · rintro ⟨regs, cls, hok, hlen, hcls, hspan⟩
    have hcomp : create_voronoi_regions vor3 (List.replicate 9 0) ["c0", "c1"] =
        Except.ok ([[[((1 : ℚ), (1 : ℚ)), (3, 1), (3, 3), (1, 3)]]], ["c0"]) := rfl
    rw [hcomp] at hok
    injection hok with h
    injection h with h1 h2
    obtain ⟨v, hv, hall⟩ := hspan.1
    rw [← h1] at hv
    have h00 : ((0 : ℚ), (0 : ℚ)) ∈ sites3 := by
      unfold sites3
      exact List.mem_cons_self _ _
    have hv1 := hall _ h00
    simp only [List.flatten, List.append_nil, List.mem_cons, List.not_mem_nil,
      or_false, List.mem_append] at hv
    rcases hv with rfl | rfl | rfl | rfl <;> norm_num at hv1

/-- C2 (amended): for every Voronoi diagram and uniformly-predicted grid whose
valid cells form exactly one connected component with a mapped representative,
the extractor outputs exactly one region — the list of that component's cell
polygons (the bounded cells; unbounded boundary cells are dropped, so the
region spans the box inset by the dropped boundary ring, not the full box) —
labeled `class_names[0]`: the dense remap sends the single present class
value to index 0. -/
theorem C2_uniform_grid_single_region (vor : VorDiagram) (Z : List Nat)
    (classNames : List String) (c : Nat) (comp : List Nat)
    (hZ : ∀ z ∈ Z, z = c)
    (hcomps : voronoiComps vor Z classNames = [comp])
    (hvalid : ((voronoiState vor Z classNames).classMap.lookup
        (comp.headD 0)).isSome) :
    create_voronoi_regions vor Z classNames =
      Except.ok
        ([comp.filterMap (fun i =>
            ((voronoiState vor Z classNames).indexMap.lookup i).map
              (fun pidx => (voronoiState vor Z classNames).polygons.getD pidx []))],
         [classNames.getD 0 ""]) := by
  obtain ⟨v, hv⟩ := Option.isSome_iff_exists.1 hvalid
  have hvval : v = classNames.getD 0 "" :=
    classMap_value_voronoiState vor Z classNames c hZ _ (mem_of_lookup_eq_some hv)
  unfold create_voronoi_regions
  rw [hcomps, mergeComponents_singleton hv, hvval]

/-- C2 witness: the amended theorem applied to the 3x3 uniform grid of class 1
(the single component is the center cell, region index 4). -/
theorem C2_uniform_grid_single_region_witness :
    create_voronoi_regions vor3 (List.replicate 9 1) ["c0", "c1"] =
      Except.ok ([[[((1 : ℚ), (1 : ℚ)), (3, 1), (3, 3), (1, 3)]]], ["c0"]) := by
  exact C2_uniform_grid_single_region vor3 (List.replicate 9 1) ["c0", "c1"] 1 [4]
    (fun z hz => List.eq_of_mem_replicate hz) rfl rfl

/-- C9: on the 2x3 mesh (a reachable thin grid) every Voronoi cell is
unbounded, so no region carries a class; yet the single finite ridge between
the two middle sites makes both class lookups return `None`, `None == None`
holds, and an edge is inserted between two classless regions — the resulting
component's class lookup then fails (`KeyError`), so the merged region's class
label is not well defined: the code contradicts the claimed same-class-only
edge rule. -/
theorem C9_classless_edge_keyerror :
    create_voronoi_regions vor23 (List.replicate 6 0) ["c0"] =
      Except.error "KeyError: component representative has no class" ∧
    adjacencyEdges vor23
        (voronoiState vor23 (List.replicate 6 0) ["c0"]).classMap = [(1, 4)] ∧
    (voronoiState vor23 (List.replicate 6 0) ["c0"]).classMap.lookup 1 = none ∧
    (voronoiState vor23 (List.replicate 6 0) ["c0"]).classMap.lookup 4 = none :=
  ⟨rfl, rfl, rfl, rfl⟩

/-- C3: for every non-invertible reduction method (tsne, umap, mds — lowercase
of the request method), the pipeline succeeds with a payload whose
decisionBoundary is the `basic` form carrying only xRange and yRange (no
regions, no regionClasses by its very constructor), and the classifier is
queried on no grid point at all (the instrumented query list is empty). -/
theorem C3_noninvertible_ranges_only (o : Oracles) (r : Request)
    (h : pyLower r.method ∈ ["tsne", "umap", "mds"]) :
    scatter_generate o r =
      Except.ok
        (⟨(scatterFiltered o r).1,
          convert_to_feature_dicts (scatterFiltered o r).2.1 r.featureNames,
          (scatterFiltered o r).2.2,
          Boundary.basic (xboundsOf (scatterCoords o r))
            (yboundsOf (scatterCoords o r)),
          pyLower r.method,
          update_original_flags (r.Xorig.map List.length)
            (scatterFiltered o r).2.2.length⟩,
         []) := by
  have hfalse : can_generate_boundary (pyLower r.method) = false := by
    simp only [List.mem_cons, List.not_mem_nil, or_false] at h
    rcases h with h | h | h <;>
      · unfold can_generate_boundary
        rw [h]
        decide
  unfold scatter_generate
  rw [hfalse]
  simp

/-- C3 witness: the ranges-only theorem applied at the concrete request with
method "TSNE" and concrete oracles. -/
theorem C3_noninvertible_ranges_only_witness :
    scatter_generate oraclesW requestW =
      Except.ok
        (⟨(scatterFiltered oraclesW requestW).1,
          convert_to_feature_dicts (scatterFiltered oraclesW requestW).2.1
            requestW.featureNames,
          (scatterFiltered oraclesW requestW).2.2,
          Boundary.basic (xboundsOf (scatterCoords oraclesW requestW))
            (yboundsOf (scatterCoords oraclesW requestW)),
          pyLower requestW.method,
          update_original_flags (requestW.Xorig.map List.length)
            (scatterFiltered oraclesW requestW).2.2.length⟩,
         []) :=
  C3_noninvertible_ranges_only oraclesW requestW (by decide)

/-- C8: the pipeline threaded against an ambient numpy-global RNG state:
(1) two runs with identical inputs and seed but arbitrary (possibly different)
ambient states produce identical results — output is a function of request
and oracles alone, all randomness being locally re-seeded; (2) a second run
after a first one reproduces the first bit-for-bit; (3) in particular the
transformedData (with its ordering) and the decision boundary (hence region
polygons) coincide across the two runs. -/
theorem C8_identical_runs (o : Oracles) (r : Request) (g1 g2 : List Nat) :
    ((scatter_generate_run o r g1).1 = (scatter_generate_run o r g2).1) ∧
    ((scatter_generate_run o r ((scatter_generate_run o r g1).2)).1 =
      (scatter_generate_run o r g1).1) ∧
    (∀ pl1 ql1 pl2 ql2,
      (scatter_generate_run o r g1).1 = Except.ok (pl1, ql1) →
      (scatter_generate_run o r g2).1 = Except.ok (pl2, ql2) →
      pl1.transformedData = pl2.transformedData ∧
        pl1.decisionBoundary = pl2.decisionBoundary) := by
  refine ⟨rfl, rfl, ?_⟩
  intro pl1 ql1 pl2 ql2 h1 h2
  have h12 : (Except.ok (pl1, ql1) : Except String (Payload × List (List ℚ))) =
      Except.ok (pl2, ql2) := by
    rw [← h1, ← h2]
    rfl
  injection h12 with hp
  injection hp with hpl hql
  rw [hpl]
  exact ⟨rfl, rfl⟩

/-- C8 witness: the determinism theorem applied at the concrete oracles and
request with two different ambient RNG states. -/
theorem C8_identical_runs_witness :
    ((scatter_generate_run oraclesW requestW [1, 2, 3]).1 =
      (scatter_generate_run oraclesW requestW [7]).1) ∧
    ((scatter_generate_run oraclesW requestW
        ((scatter_generate_run oraclesW requestW [1, 2, 3]).2)).1 =
      (scatter_generate_run oraclesW requestW [1, 2, 3]).1) ∧
    (∀ pl1 ql1 pl2 ql2,
      (scatter_generate_run oraclesW requestW [1, 2, 3]).1 =
        Except.ok (pl1, ql1) →
      (scatter_generate_run oraclesW requestW [7]).1 = Except.ok (pl2, ql2) →
      pl1.transformedData = pl2.transformedData ∧
        pl1.decisionBoundary = pl2.decisionBoundary) :=
  C8_identical_runs oraclesW requestW [1, 2, 3] [7]

end ThesisViz
